import Mathlib

/-!
Verification of the loopback volume manager (docker-volume-loopback).

Shallow embedding of `src/manager/manager.go` and the mode-option handling of
`src/driver/driver.go`.  The on-disk state visible to the manager is captured
by `FsState`: the data directory's files (backing files), the per-volume state
directories with their lease marker files, and the set of existing mountpoint
directories.  External utilities (`truncate`, `fallocate`, `dd`, `mkfs`,
`mount`, `umount`, `chmod`, `chown`) are modelled by their effect on this
state; invocations of the physical `mount`/`umount` utilities and of the
allocation/format utilities are recorded as `Event`s so that theorems can
speak about which syscalls a call path performs.

The `Volume` struct and its `IsMounted` method live in a `volume.go` file that
is not part of `src/`; those two are modelled from the spec (see the
doc comments on `listLeases` and `isMountedVol`).
-/

/-- Equality of `Except` results is decidable componentwise; this lets
concrete runs of the model be checked by `decide`. -/
instance {ε α : Type} [DecidableEq ε] [DecidableEq α] : DecidableEq (Except ε α) := fun a b =>
  match a, b with
  | .ok x, .ok y =>
      if h : x = y then isTrue (by rw [h]) else isFalse (by intro hc; cases hc; exact h rfl)
  | .error x, .error y =>
      if h : x = y then isTrue (by rw [h]) else isFalse (by intro hc; cases hc; exact h rfl)
  | .ok _, .error _ => isFalse (by intro hc; cases hc)
  | .error _, .ok _ => isFalse (by intro hc; cases hc)

namespace Loopback

/-- Error kinds of the manager/driver, named as in the spec (section 7). -/
inductive Err where
  | invalidName
  | sizeTooSmall
  | unsupportedFilesystem
  | invalidMode
  | allocationFailed
  | insufficientSpace
  | formatFailed
  | ownershipSetupFailed
  | volumeNotFound
  | ambiguousVolumeState
  | unexpectedVolumeState
  | leaseNotFound
  | leaseError
  | mountFailed
  | unmountFailed
  | volumeInUse
  deriving DecidableEq, Repr

/-- Stat data of a file in the data directory: regular-file bit, `st_size`
(bytes) and `st_blocks` (512-byte units), as read by `Manager.getVolume`. -/
structure FileInfo where
  IsRegular : Bool
  Size : Int
  Blocks : Int
  deriving DecidableEq, Repr

/-- The on-disk state the manager observes and mutates:
* `dataFiles`: contents of the data directory (file name with extension ↦ stat info);
* `stateDirs`: the state directories present, per volume name, each with the
  list of lease marker file names it contains (a directory listing, so entries
  are distinct in any state reachable from a real filesystem);
* `mountPoints`: the volume names whose mountpoint directory exists. -/
structure FsState where
  dataFiles : List (String × FileInfo)
  stateDirs : List (String × List String)
  mountPoints : List String
  deriving DecidableEq, Repr

/-- Manager configuration (`manager.Manager`): the three directories. -/
structure Manager where
  stateDir : String
  dataDir : String
  mountDir : String
  deriving DecidableEq, Repr

/-- Model of `filepath.Join dir name` for a cleaned absolute `dir` and a
volume/file name containing no separators and no dot path elements. -/
def joinPath (dir name : String) : String := dir ++ "/" ++ name

/-- The volume view built by `Manager.getVolume` (struct `Volume` from the
repository's volume.go; its fields are taken from the construction in
`manager.go:483-492`).  `CreatedAt` (a wall-clock timestamp) is omitted:
no claim mentions it. -/
structure Volume where
  Name : String
  Fs : String
  AllocatedSizeInBytes : Int
  MaxSizeInBytes : Int
  StateDir : String
  DataFilePath : String
  MountPointPath : String
  deriving DecidableEq, Repr

/-! ### Association-list primitives for the modelled directories -/

/-- Look up a file of the data directory by its name. -/
def lookupFile (s : FsState) (fname : String) : Option FileInfo :=
  (s.dataFiles.find? (fun p => p.1 = fname)).map (fun p => p.2)

/-- Create or overwrite a file entry of the data directory. -/
def updateFiles : List (String × FileInfo) → String → FileInfo → List (String × FileInfo)
  | [], fname, info => [(fname, info)]
  | p :: rest, fname, info =>
      if p.1 = fname then (fname, info) :: rest else p :: updateFiles rest fname info

/-- Effect of an external utility creating/overwriting the file `fname`. -/
def putFile (s : FsState) (fname : String) (info : FileInfo) : FsState :=
  { s with dataFiles := updateFiles s.dataFiles fname info }

/-- Effect of `os.Remove` on the data-directory file `fname` (best-effort:
removing an absent file changes nothing, matching the ignored error). -/
def removeFileName (s : FsState) (fname : String) : FsState :=
  { s with dataFiles := s.dataFiles.filter (fun p => p.1 ≠ fname) }

/-- Effect of `os.Remove path` for a path under the data directory
(`Manager.Delete` removes by `vol.DataFilePath`). -/
def removeFilePath (m : Manager) (s : FsState) (path : String) : FsState :=
  { s with dataFiles := s.dataFiles.filter (fun p => joinPath m.dataDir p.1 ≠ path) }

/-- Look up a volume's state directory; `none` means the directory is absent. -/
def lookupDir (s : FsState) (name : String) : Option (List String) :=
  (s.stateDirs.find? (fun p => p.1 = name)).map (fun p => p.2)

/-- Create or replace a volume's state directory entry. -/
def updateDirs : List (String × List String) → String → List String → List (String × List String)
  | [], name, ls => [(name, ls)]
  | p :: rest, name, ls =>
      if p.1 = name then (name, ls) :: rest else p :: updateDirs rest name ls

/-- Set the contents of a volume's state directory (creating it if absent). -/
def setDir (s : FsState) (name : String) (ls : List String) : FsState :=
  { s with stateDirs := updateDirs s.stateDirs name ls }

/-- Effect of `os.RemoveAll` on a volume's state directory. -/
def removeDir (s : FsState) (name : String) : FsState :=
  { s with stateDirs := s.stateDirs.filter (fun p => p.1 ≠ name) }

/-- Effect of `os.Mkdir` creating the mountpoint directory for `name`. -/
def addMountPoint (s : FsState) (name : String) : FsState :=
  { s with mountPoints := name :: s.mountPoints }

/-- Effect of `os.RemoveAll` on the mountpoint directory for `name`. -/
def removeMountPoint (s : FsState) (name : String) : FsState :=
  { s with mountPoints := s.mountPoints.filter (fun n => n ≠ name) }

/-! ### Name validation (`NamePattern`, `validateName`) -/

/-- Character class `[a-zA-Z0-9]` of the name pattern (RE2 is ASCII here). -/
def isAlphaNum (c : Char) : Bool := c.isAlpha || c.isDigit

/-- Character class `\w` of RE2: `[0-9A-Za-z_]`. -/
def isWordChar (c : Char) : Bool := isAlphaNum c || c == '_'

/-- Matching of `NamePattern` = `^[a-zA-Z0-9][\w\-]{1,250}$` (manager.go:16)
against a whole string, given as its character list. -/
def nameRegexMatches : List Char → Bool
  | [] => false
  | c :: rest =>
      isAlphaNum c && decide (1 ≤ rest.length) && decide (rest.length ≤ 250)
        && rest.all (fun d => isWordChar d || d == '-')

/-- `validateName` (manager.go:426-437): empty or non-matching names are
rejected with `InvalidName`; `none` means the name is accepted. -/
def validateName (name : String) : Option Err :=
  if name = "" then some .invalidName
  else if nameRegexMatches name.data then none
  else some .invalidName

/-! ### Volume metadata resolution (`Manager.getVolume`) -/

/-- Extension of a file name as computed by
`strings.TrimLeft(filepath.Ext(fname), ".")`: the characters after the last
dot, or the empty string when the name contains no dot. -/
def fsOfFileName (fname : String) : String :=
  if '.' ∈ fname.data.reverse then
    String.mk ((fname.data.reverse.takeWhile (fun c => c ≠ '.')).reverse)
  else ""

/-- Result of `filepath.Glob(<dataDir>/<name>.*)` restricted to the data
directory: the files whose name starts with `name` followed by a dot
(`*` matches any, possibly empty, run of non-separator characters). -/
def globMatches (s : FsState) (name : String) : List (String × FileInfo) :=
  s.dataFiles.filter (fun p => (name ++ ".").data.isPrefixOf p.1.data)

/-- The `Volume` value `getVolume` builds from the unique glob match
(manager.go:455-492). -/
def mkVol (m : Manager) (name : String) (f : String × FileInfo) : Volume :=
  { Name := name
    Fs := fsOfFileName f.1
    AllocatedSizeInBytes := f.2.Blocks * 512
    MaxSizeInBytes := f.2.Size
    StateDir := joinPath m.stateDir name
    DataFilePath := joinPath m.dataDir f.1
    MountPointPath := joinPath m.mountDir name }

/-- `Manager.getVolume` (manager.go:439-495).  Globs for `<name>.*`; more than
one match is `AmbiguousVolumeState`, zero matches is `VolumeNotFound`, a
non-regular unique match is `UnexpectedVolumeState`.  The `os.Stat` of the
match succeeds in this model since the file was just listed. -/
def getVolume (m : Manager) (s : FsState) (name : String) : Except Err Volume :=
  if 1 < (globMatches s name).length then .error .ambiguousVolumeState
  else
    match globMatches s name with
    | [] => .error .volumeNotFound
    | f :: _ =>
        if f.2.IsRegular then .ok (mkVol m name f)
        else .error .unexpectedVolumeState

/-- `Manager.Get` (manager.go:111-122): validate the name, then resolve. -/
def Get (m : Manager) (s : FsState) (name : String) : Except Err Volume :=
  match validateName name with
  | some e => .error e
  | none => getVolume m s name

/-! ### Lease tracking

The `Volume.IsMounted` method and its helper live in the repository's
volume.go, which is not among the provided sources; they are modelled from
the spec below. -/

/-- Modelled from the spec: `GetLeases` of volume.go (absent from src/).
Spec 4.4: "`listLeases(volume)`: produces the (possibly empty) set of lease
identifiers currently recorded for a volume by listing its state directory;
an absent state directory is treated as zero leases, not an error." -/
def listLeases (s : FsState) (name : String) : List String :=
  (lookupDir s name).getD []

/-- Count of lease markers currently present for a volume. -/
def leaseCount (s : FsState) (name : String) : Nat :=
  (listLeases s name).length

/-- Modelled from the spec: `Volume.IsMounted` of volume.go (absent from
src/).  The set of lease files present is the mount reference count; the
volume counts as mounted exactly when at least one lease marker exists. -/
def isMountedVol (s : FsState) (name : String) : Bool :=
  !(listLeases s name).isEmpty

/-- Effect of `os.Create leaseFile` on a directory listing: a new marker file
appears unless a file of that name is already present (then it is merely
truncated and the listing is unchanged). -/
def addLease (ls : List String) (lease : String) : List String :=
  if lease ∈ ls then ls else lease :: ls

/-- Net effect of the lease-acquisition steps of `Manager.Mount`
(manager.go:276-303): `os.MkdirAll(vol.StateDir)` when the state directory is
absent, followed by `os.Create(leaseFile)`.  Creating a marker file that
already exists truncates it and leaves the directory listing unchanged. -/
def acquireLease (s : FsState) (name lease : String) : FsState :=
  setDir s name (addLease (listLeases s name) lease)

/-! ### Manager operations with side effects -/

/-- Observable invocations of external utilities.  `mountSys`/`umountSys` are
the physical `mount`/`umount -ld` commands of manager.go:315-318/368-371; the
`cmd*` events are the allocation, formatting and ownership utilities run by
`Manager.Create`. -/
inductive Event where
  | mountSys (name : String)
  | umountSys (name : String)
  | cmdTruncate
  | cmdFallocate
  | cmdDd
  | cmdMkfs
  | cmdChmod
  | cmdChown
  deriving DecidableEq, Repr

/-- `Manager.Mount` (manager.go:256-328).  The mount status is read before
the lease is recorded; the lease is always acquired; the mountpoint directory
is created and the `mount` utility invoked only when the volume was not
already mounted.  `os.Mkdir` fails when the mountpoint directory already
exists, in which case the just-created lease marker is removed (compensating
action).  The external `mount` utility itself is modelled as succeeding. -/
def Mount (m : Manager) (s : FsState) (name lease : String) :
    Except Err String × FsState × List Event :=
  match validateName name with
  | some e => (.error e, s, [])
  | none =>
    match getVolume m s name with
    | .error e => (.error e, s, [])
    | .ok vol =>
        if isMountedVol s name then
          (.ok vol.MountPointPath, acquireLease s name lease, [])
        else if name ∈ s.mountPoints then
          (.error .mountFailed,
            setDir (acquireLease s name lease) name
              ((listLeases (acquireLease s name lease) name).erase lease),
            [])
        else
          (.ok vol.MountPointPath,
            addMountPoint (acquireLease s name lease) name,
            [.mountSys name])

/-- `Manager.UnMount` (manager.go:330-387).  `os.Remove(leaseFile)` fails
exactly when the marker is absent (`LeaseNotFound`); after a successful
removal the lease count is recomputed, and when it reached zero the state
directory is removed, `umount -ld` invoked, and the mountpoint directory
removed.  The external `umount` utility is modelled as succeeding. -/
def UnMount (m : Manager) (s : FsState) (name lease : String) :
    Option Err × FsState × List Event :=
  match validateName name with
  | some e => (some e, s, [])
  | none =>
    match getVolume m s name with
    | .error e => (some e, s, [])
    | .ok _vol =>
        if lease ∈ listLeases s name then
          if (listLeases s name).erase lease ≠ [] then
            (none, setDir s name ((listLeases s name).erase lease), [])
          else
            (none,
              removeMountPoint
                (removeDir (setDir s name ((listLeases s name).erase lease)) name) name,
              [.umountSys name])
        else
          (some .leaseNotFound, s, [])

/-- Semantics of `github.com/pkg/errors.Wrapf` when the wrapped error is nil:
the library documents that `Wrapf` returns nil in that case, so the call site
produces no error at all. -/
def wrapfNil : Option Err := none

/-- `Manager.Delete` (manager.go:389-424).  After resolving the volume the
code checks `vol.IsMounted()`; in the in-use branch it returns
`errors.Wrapf(err, "... still in use")` where `err` is nil at that point
(it was checked just above), so the branch returns nil — success — without
removing the backing file.  Only the zero-lease branch removes the file. -/
def Delete (m : Manager) (s : FsState) (name : String) : Option Err × FsState :=
  match validateName name with
  | some e => (some e, s)
  | none =>
    match Get m s name with
    | .error e => (some e, s)
    | .ok vol =>
        if isMountedVol s name then
          (wrapfNil, s)
        else
          (none, removeFilePath m s vol.DataFilePath)

/-! ### Volume creation (`Manager.Create`) -/

/-- Outcome of the `fallocate` attempt (manager.go:167-178): success, failure
whose combined output contains "No space", or any other failure (assumed to
mean the filesystem does not support fast allocation). -/
inductive FallocateOutcome where
  | ok
  | noSpace
  | otherFailure
  deriving DecidableEq, Repr

/-- Outcomes of the external utilities `Manager.Create` shells out to; the
manager only observes success or failure (plus the "No space" distinction for
`fallocate`), so the environment is this record of outcomes. -/
structure ExecEnv where
  fallocate : FallocateOutcome
  truncateOk : Bool
  ddOk : Bool
  mkfsOk : Bool
  chmodOk : Bool
  chownOk : Bool
  deriving DecidableEq, Repr

/-- `MkFsOptions` (manager.go:19-22): the fixed allow-list of filesystems
with their `mkfs` flags; a lookup failure is how `Create` rejects an
unsupported filesystem. -/
def MkFsOptions (fs : String) : Option (List String) :=
  if fs = "ext4" then some ["-F"]
  else if fs = "xfs" then some []
  else none

/-- `MountOptions` (manager.go:24-27): per-filesystem `mount` flags. -/
def MountOptions (fs : String) : List String :=
  if fs = "ext4" then []
  else if fs = "xfs" then ["-o", "nouuid"]
  else []

/-- Backing file name `<name>.<fs>` (manager.go:154). -/
def dataFileName (name fs : String) : String := name ++ "." ++ fs

/-- `Manager.Create` (manager.go:124-254).

Order of checks as in the source: name validation, the 10,000,000-byte
minimum size, the filesystem allow-list; then `os.MkdirAll(dataDir)` (the
data directory's own existence is not tracked by `FsState`), then allocation:
* sparse: `truncate -s sizeInBytes` (logical length set, no blocks);
* non-sparse: `fallocate -l sizeInBytes` first; a "No space" failure aborts
  with no fallback; any other failure falls back to
  `dd if=/dev/zero bs=1000000 count=(sizeInBytes / 1000000)`, which writes
  only the whole blocks (integer division);
each failure removes the partial file (best effort).  Then `mkfs.<fs>`; then,
if any of uid/gid/mode was supplied, the ownership path mounts the volume
under the reserved lease "driver", runs `chmod` (mode > 0) and `chown`
(uid ≥ 0 or gid ≥ 0), and unmounts; every failure on that path removes the
backing file and is surfaced (spec kind `OwnershipSetupFailed`). -/
def Create (m : Manager) (env : ExecEnv) (s : FsState) (name : String)
    (sizeInBytes : Int) (sparse : Bool) (fs : String) (uid gid : Int)
    (mode : Nat) : Option Err × FsState × List Event :=
  match validateName name with
  | some e => (some e, s, [])
  | none =>
    if sizeInBytes < 10000000 then (some .sizeTooSmall, s, [])
    else
      match MkFsOptions fs with
      | none => (some .unsupportedFilesystem, s, [])
      | some _mkfsFlags =>
        match
          (if sparse then
            (if env.truncateOk then
              (none, putFile s (dataFileName name fs)
                { IsRegular := true, Size := sizeInBytes, Blocks := 0 }, [.cmdTruncate])
            else
              (some Err.allocationFailed, removeFileName s (dataFileName name fs),
                [.cmdTruncate]))
          else
            match env.fallocate with
            | .ok =>
                (none, putFile s (dataFileName name fs)
                  { IsRegular := true, Size := sizeInBytes,
                    Blocks := (sizeInBytes + 511) / 512 }, [.cmdFallocate])
            | .noSpace =>
                (some Err.insufficientSpace, removeFileName s (dataFileName name fs),
                  [.cmdFallocate])
            | .otherFailure =>
                if env.ddOk then
                  (none, putFile s (dataFileName name fs)
                    { IsRegular := true, Size := sizeInBytes / 1000000 * 1000000,
                      Blocks := sizeInBytes / 1000000 * 1000000 / 512 },
                    [.cmdFallocate, .cmdDd])
                else
                  (some Err.allocationFailed, removeFileName s (dataFileName name fs),
                    [.cmdFallocate, .cmdDd]) : Option Err × FsState × List Event)
        with
        | (some e, s1, evs1) => (some e, s1, evs1)
        | (none, s1, evs1) =>
          if ¬ env.mkfsOk then
            (some .formatFailed, removeFileName s1 (dataFileName name fs),
              evs1 ++ [.cmdMkfs])
          else
            if uid ≥ 0 ∨ gid ≥ 0 ∨ mode > 0 then
              match Mount m s1 name "driver" with
              | (.error _, s2, evsM) =>
                  (some .ownershipSetupFailed, removeFileName s2 (dataFileName name fs),
                    evs1 ++ [.cmdMkfs] ++ evsM)
              | (.ok _mountPath, s2, evsM) =>
                  if mode > 0 ∧ ¬ env.chmodOk then
                    (some .ownershipSetupFailed,
                      removeFileName (UnMount m s2 name "driver").2.1 (dataFileName name fs),
                      evs1 ++ [.cmdMkfs] ++ evsM ++ [.cmdChmod]
                        ++ (UnMount m s2 name "driver").2.2)
                  else
                    if (uid ≥ 0 ∨ gid ≥ 0) ∧ ¬ env.chownOk then
                      (some .ownershipSetupFailed,
                        removeFileName (UnMount m s2 name "driver").2.1 (dataFileName name fs),
                        evs1 ++ [.cmdMkfs] ++ evsM
                          ++ (if mode > 0 then [Event.cmdChmod] else [])
                          ++ [.cmdChown] ++ (UnMount m s2 name "driver").2.2)
                    else
                      match UnMount m s2 name "driver" with
                      | (some _, s3, evsU) =>
                          (some .ownershipSetupFailed,
                            removeFileName s3 (dataFileName name fs),
                            evs1 ++ [.cmdMkfs] ++ evsM
                              ++ (if mode > 0 then [Event.cmdChmod] else [])
                              ++ (if uid ≥ 0 ∨ gid ≥ 0 then [Event.cmdChown] else [])
                              ++ evsU)
                      | (none, s3, evsU) =>
                          (none, s3,
                            evs1 ++ [.cmdMkfs] ++ evsM
                              ++ (if mode > 0 then [Event.cmdChmod] else [])
                              ++ (if uid ≥ 0 ∨ gid ≥ 0 then [Event.cmdChown] else [])
                              ++ evsU)
            else (none, s1, evs1 ++ [.cmdMkfs])

/-! ### Driver-side mode option parsing (`Driver.Create`, driver.go:160-178) -/

/-- Value of an octal digit, `none` for any other character. -/
def octDigit (c : Char) : Option Nat :=
  if '0' ≤ c ∧ c ≤ '7' then some (c.toNat - '0'.toNat) else none

/-- Accumulating octal parse over a character list. -/
def parseOctalCore : List Char → Nat → Option Nat
  | [], acc => some acc
  | c :: rest, acc =>
      match octDigit c with
      | some d => parseOctalCore rest (acc * 8 + d)
      | none => none

/-- Go `strconv.ParseUint(s, 8, 32)`: a nonempty string of octal digits whose
value fits in 32 bits; anything else is a parse error. -/
def parseOctalU32 (s : String) : Option Nat :=
  match s.data with
  | [] => none
  | cs =>
      match parseOctalCore cs 0 with
      | some v => if v < 2 ^ 32 then some v else none
      | none => none

/-- The 7th step of `Driver.Create` (driver.go:160-178) for a supplied,
nonempty `mode` option string: parse as octal, then reject when
`modeParsed <= 0 || modeParsed > 07777`.  Both the parse failure and the
range failure surface as mode errors (spec kind `InvalidMode`); `ok v`
is the mode value handed to `Manager.Create`. -/
def parseMode (modeStr : String) : Except Err Nat :=
  match parseOctalU32 modeStr with
  | none => .error .invalidMode
  | some v => if v ≤ 0 ∨ 0o7777 < v then .error .invalidMode else .ok v

/-! ### Sequences of Mount/UnMount calls -/

/-- One externally requested mount or unmount call. -/
inductive Op where
  | mount (name lease : String)
  | unmount (name lease : String)
  deriving DecidableEq, Repr

/-- State transition and emitted events of one call. -/
def runOp (m : Manager) (s : FsState) : Op → FsState × List Event
  | .mount name lease => (Mount m s name lease).2
  | .unmount name lease => (UnMount m s name lease).2

/-- Run a sequence of calls, concatenating the emitted events. -/
def run (m : Manager) (s : FsState) : List Op → FsState × List Event
  | [] => (s, [])
  | op :: rest =>
      ((run m (runOp m s op).1 rest).1,
        (runOp m s op).2 ++ (run m (runOp m s op).1 rest).2)

/-- Number of occurrences of an event in a trace. -/
def countEv (evs : List Event) (e : Event) : Nat :=
  (evs.filter (fun x => x = e)).length

/-- Number of calls of the sequence at which the lease count of `name` goes
from zero to nonzero. -/
def mountTrans (m : Manager) (name : String) : FsState → List Op → Nat
  | _, [] => 0
  | s, op :: rest =>
      (if leaseCount s name = 0 ∧ leaseCount (runOp m s op).1 name ≠ 0 then 1 else 0)
        + mountTrans m name (runOp m s op).1 rest

/-- Number of calls of the sequence at which the lease count of `name` goes
from nonzero to zero. -/
def unmountTrans (m : Manager) (name : String) : FsState → List Op → Nat
  | _, [] => 0
  | s, op :: rest =>
      (if leaseCount s name ≠ 0 ∧ leaseCount (runOp m s op).1 name = 0 then 1 else 0)
        + unmountTrans m name (runOp m s op).1 rest

/-- On-disk consistency (spec section 3): a mountpoint directory exists only
for volumes whose lease count is positive.  This is the direction of the
invariant `Manager.Mount` relies on: with zero leases the mountpoint
directory must be absent for `os.Mkdir` to succeed. -/
def WF (s : FsState) : Prop :=
  ∀ n ∈ s.mountPoints, leaseCount s n ≠ 0

instance (s : FsState) : Decidable (WF s) := by
  unfold WF
  infer_instance

/-! ### Basic lemmas about the directory model -/

theorem lookupDir_updateDirs_self (ds : List (String × List String)) (n : String)
    (ls : List String) :
    (((updateDirs ds n ls).find? (fun p => p.1 = n)).map (fun p => p.2)) = some ls := by
  induction ds with
  | nil => simp [updateDirs, List.find?]
  | cons p rest ih =>
      by_cases h : p.1 = n
      · simp [updateDirs, h, List.find?]
      · simp only [updateDirs, if_neg h, List.find?]
        rw [show (decide (p.1 = n)) = false by simp [h]]
        exact ih

theorem lookupDir_updateDirs_ne (ds : List (String × List String)) (n n' : String)
    (ls : List String) (hne : n' ≠ n) :
    (((updateDirs ds n ls).find? (fun p => p.1 = n')).map (fun p => p.2))
      = ((ds.find? (fun p => p.1 = n')).map (fun p => p.2)) := by
  induction ds with
  | nil =>
      simp [updateDirs, List.find?, show (decide (n = n')) = false by simp [Ne.symm hne]]
  | cons p rest ih =>
      by_cases h : p.1 = n
      · simp only [updateDirs, if_pos h, List.find?]
        rw [show (decide (n = n')) = false by simp [Ne.symm hne]]
        rw [show (decide (p.1 = n')) = false by simp [h, Ne.symm hne]]
      · simp only [updateDirs, if_neg h, List.find?]
        cases hd : decide (p.1 = n') with
        | true => rfl
        | false => exact ih

theorem lookupDir_setDir_self (s : FsState) (n : String) (ls : List String) :
    lookupDir (setDir s n ls) n = some ls :=
  lookupDir_updateDirs_self s.stateDirs n ls

theorem lookupDir_setDir_ne (s : FsState) (n n' : String) (ls : List String) (hne : n' ≠ n) :
    lookupDir (setDir s n ls) n' = lookupDir s n' :=
  lookupDir_updateDirs_ne s.stateDirs n n' ls hne

theorem listLeases_setDir_self (s : FsState) (n : String) (ls : List String) :
    listLeases (setDir s n ls) n = ls := by
  simp [listLeases, lookupDir_setDir_self]

theorem listLeases_setDir_ne (s : FsState) (n n' : String) (ls : List String) (hne : n' ≠ n) :
    listLeases (setDir s n ls) n' = listLeases s n' := by
  simp [listLeases, lookupDir_setDir_ne s n n' ls hne]

theorem lookupDir_removeDir_self (s : FsState) (n : String) :
    lookupDir (removeDir s n) n = none := by
  simp only [lookupDir, removeDir]
  rw [List.find?_eq_none.mpr]
  · rfl
  · intro p hp
    have := List.of_mem_filter hp
    simpa using this

theorem lookupDir_removeDir_ne (s : FsState) (n n' : String) (hne : n' ≠ n) :
    lookupDir (removeDir s n) n' = lookupDir s n' := by
  simp only [lookupDir, removeDir]
  congr 1
  induction s.stateDirs with
  | nil => rfl
  | cons p rest ih =>
      by_cases h : p.1 = n
      · rw [show List.filter (fun p => decide (p.1 ≠ n)) (p :: rest)
              = List.filter (fun p => decide (p.1 ≠ n)) rest by simp [List.filter, h]]
        rw [ih, List.find?]
        rw [show (decide (p.1 = n')) = false by simp [h, Ne.symm hne]]
      · rw [show List.filter (fun p => decide (p.1 ≠ n)) (p :: rest)
              = p :: List.filter (fun p => decide (p.1 ≠ n)) rest by simp [List.filter, h]]
        rw [List.find?, List.find?]
        cases hd : decide (p.1 = n') with
        | true => rfl
        | false => exact ih

theorem listLeases_removeDir_self (s : FsState) (n : String) :
    listLeases (removeDir s n) n = [] := by
  simp [listLeases, lookupDir_removeDir_self]

theorem listLeases_removeDir_ne (s : FsState) (n n' : String) (hne : n' ≠ n) :
    listLeases (removeDir s n) n' = listLeases s n' := by
  simp [listLeases, lookupDir_removeDir_ne s n n' hne]

theorem setDir_setDir (s : FsState) (n : String) (a b : List String) :
    setDir (setDir s n a) n b = setDir s n b := by
  simp only [setDir]
  congr 1
  induction s.stateDirs with
  | nil => simp [updateDirs]
  | cons p rest ih =>
      by_cases h : p.1 = n
      · simp [updateDirs, h]
      · simp [updateDirs, h, ih]

theorem addLease_ne_nil (ls : List String) (lease : String) : addLease ls lease ≠ [] := by
  unfold addLease
  split
  · intro hnil
    subst hnil
    simp_all
  · simp

theorem mem_addLease_self (ls : List String) (lease : String) : lease ∈ addLease ls lease := by
  unfold addLease
  split
  · assumption
  · exact List.mem_cons_self lease ls

theorem addLease_of_mem (ls : List String) (lease : String) (h : lease ∈ ls) :
    addLease ls lease = ls := by
  simp [addLease, h]

theorem listLeases_acquireLease_self (s : FsState) (n lease : String) :
    listLeases (acquireLease s n lease) n = addLease (listLeases s n) lease := by
  simp [acquireLease, listLeases_setDir_self]

theorem listLeases_acquireLease_ne (s : FsState) (n n' lease : String) (hne : n' ≠ n) :
    listLeases (acquireLease s n lease) n' = listLeases s n' := by
  simp [acquireLease, listLeases_setDir_ne s n n' _ hne]

theorem getVolume_mountPointPath (m : Manager) (s : FsState) (name : String) (vol : Volume)
    (h : getVolume m s name = .ok vol) : vol.MountPointPath = joinPath m.mountDir name := by
  unfold getVolume at h
  split at h
  · cases h
  · split at h
    · cases h
    · split at h
      · cases h
        rfl
      · cases h

/-! ### Claim theorems -/

/-- C10: the name validator accepts exactly the strings matching
`^[a-zA-Z0-9][\w\-]{1,250}$` — the first character alphanumeric, 1 to 250
further characters each alphanumeric, underscore or hyphen (total length 2 to
251) — and in particular every single-character name is rejected with
`InvalidName` even though its sole character is alphanumeric. -/
theorem c10_name_validator :
    (∀ name : String, validateName name = none ↔
      ∃ c rest, name.data = c :: rest ∧ isAlphaNum c = true ∧
        1 ≤ rest.length ∧ rest.length ≤ 250 ∧
        ∀ d ∈ rest, isWordChar d = true ∨ d = '-') ∧
    (∀ c : Char, validateName { data := [c] } = some Err.invalidName) := by
  constructor
  · intro name
    obtain ⟨l⟩ := name
    cases l with
    | nil =>
        constructor
        · intro h
          rw [show ({ data := [] } : String) = "" from rfl] at h
          simp [validateName] at h
        · rintro ⟨c, rest, hcr, -⟩
          cases hcr
    | cons c rest =>
        have hne : ({ data := c :: rest } : String) ≠ "" := by
          intro h
          have : (⟨c :: rest⟩ : String).data = ("" : String).data := by rw [h]
          simp at this
        constructor
        · intro h
          simp only [validateName, if_neg hne] at h
          split at h
          case isTrue hm =>
            simp only [nameRegexMatches, Bool.and_eq_true, decide_eq_true_eq,
              List.all_eq_true, Bool.or_eq_true, beq_iff_eq] at hm
            exact ⟨c, rest, rfl, hm.1.1.1, hm.1.1.2, hm.1.2, hm.2⟩
          case isFalse => cases h
        · rintro ⟨c', rest', hcr, h1, h2, h3, h4⟩
          cases hcr
          simp only [validateName, if_neg hne]
          rw [if_pos]
          simp only [nameRegexMatches, Bool.and_eq_true, decide_eq_true_eq,
            List.all_eq_true, Bool.or_eq_true, beq_iff_eq]
          exact ⟨⟨⟨h1, h2⟩, h3⟩, h4⟩
  · intro c
    have hne : ({ data := [c] } : String) ≠ "" := by
      intro h
      have : (⟨[c]⟩ : String).data = ("" : String).data := by rw [h]
      simp at this
    simp only [validateName, if_neg hne]
    rw [if_neg]
    simp [nameRegexMatches]

/-- Witness for C10 at concrete names: "db" is accepted, the single-character
name "x" is rejected. -/
theorem c10_name_validator_witness :
    validateName { data := ['d', 'b'] } = none ∧
    validateName { data := ['x'] } = some Err.invalidName :=
  ⟨(c10_name_validator.1 { data := ['d', 'b'] }).mpr
      ⟨'d', ['b'], rfl, by decide, by decide, by decide, by decide⟩,
    c10_name_validator.2 'x'⟩

/-- C9: resolving volume metadata globs for `<dataDir>/<name>.*` and fails
with `VolumeNotFound` on zero matches, with `AmbiguousVolumeState` on more
than one match, and with `UnexpectedVolumeState` when the unique match is not
a regular file; it succeeds exactly on one regular-file match. -/
theorem c9_resolver (m : Manager) (s : FsState) (name : String) :
    (globMatches s name = [] → getVolume m s name = .error .volumeNotFound) ∧
    (1 < (globMatches s name).length → getVolume m s name = .error .ambiguousVolumeState) ∧
    (∀ f, globMatches s name = [f] →
      getVolume m s name =
        if f.2.IsRegular then .ok (mkVol m name f) else .error .unexpectedVolumeState) := by
  refine ⟨?_, ?_, ?_⟩
  · intro h
    unfold getVolume
    rw [h]
    simp
  · intro h
    unfold getVolume
    rw [if_pos h]
  · intro f h
    unfold getVolume
    rw [h]
    simp

/-! ### Concrete fixtures for witnesses -/

/-- A concrete manager configuration. -/
def M0 : Manager := { stateDir := "/run/state", dataDir := "/data", mountDir := "/mnt" }

/-- Stat data of a 50 MB fully allocated regular backing file. -/
def infoReg : FileInfo := { IsRegular := true, Size := 50000000, Blocks := 97656 }

/-- An empty data directory. -/
def stEmpty : FsState := { dataFiles := [], stateDirs := [], mountPoints := [] }

/-- One volume `vol01` backed by `vol01.ext4`, not mounted. -/
def stOneVol : FsState :=
  { dataFiles := [("vol01.ext4", infoReg)], stateDirs := [], mountPoints := [] }

/-- Two backing files match `vol01.*` (corrupted layout). -/
def stTwo : FsState :=
  { dataFiles := [("vol01.ext4", infoReg), ("vol01.xfs", infoReg)]
    stateDirs := [], mountPoints := [] }

/-- The unique `vol01.*` match is not a regular file. -/
def stIrregular : FsState :=
  { dataFiles := [("vol01.ext4", { IsRegular := false, Size := 0, Blocks := 0 })]
    stateDirs := [], mountPoints := [] }

/-- Volume `vol01` mounted with one lease `c1` held. -/
def stLeased : FsState :=
  { dataFiles := [("vol01.ext4", infoReg)]
    stateDirs := [("vol01", ["c1"])]
    mountPoints := ["vol01"] }

/-- Witness for C9: all four resolver outcomes at concrete states. -/
theorem c9_resolver_witness :
    getVolume M0 stEmpty "vol01" = .error .volumeNotFound ∧
    getVolume M0 stTwo "vol01" = .error .ambiguousVolumeState ∧
    getVolume M0 stIrregular "vol01" = .error .unexpectedVolumeState ∧
    getVolume M0 stOneVol "vol01" = .ok (mkVol M0 "vol01" ("vol01.ext4", infoReg)) := by
  refine ⟨(c9_resolver M0 stEmpty "vol01").1 (by decide),
          (c9_resolver M0 stTwo "vol01").2.1 (by decide), ?_, ?_⟩
  · have h := (c9_resolver M0 stIrregular "vol01").2.2
      ("vol01.ext4", { IsRegular := false, Size := 0, Blocks := 0 }) (by decide)
    simpa using h
  · have h := (c9_resolver M0 stOneVol "vol01").2.2 ("vol01.ext4", infoReg) (by decide)
    simpa [infoReg] using h

/-- C1 (code bug): the claim — and the code's own error message
"still in use" — require `Delete` to fail with `VolumeInUse` whenever at
least one lease marker exists.  The code instead returns
`errors.Wrapf(err, ...)` with `err` nil at that point, and
`github.com/pkg/errors.Wrapf` returns nil for a nil error, so `Delete`
reports success; the backing file is nevertheless not removed.  This theorem
evaluates the model at a failing input: one lease `c1` is held on `vol01`,
`Delete` returns no error, and the state (including `vol01.ext4` in the data
directory) is unchanged. -/
theorem c1_delete_in_use_bug :
    (Delete M0 stLeased "vol01").1 = none ∧
    (Delete M0 stLeased "vol01").2 = stLeased ∧
    leaseCount stLeased "vol01" = 1 ∧
    lookupFile (Delete M0 stLeased "vol01").2 "vol01.ext4" = some infoReg := by decide

/-- C4: for a resolvable volume, `UnMount` with a lease identifier whose
marker file is absent fails with `LeaseNotFound`, leaves the whole state (in
particular the lease count) unchanged, and emits no unmount syscall. -/
theorem c4_unmount_unknown_lease (m : Manager) (s : FsState) (name lease : String)
    (vol : Volume) (hget : Get m s name = .ok vol)
    (habs : lease ∉ listLeases s name) :
    UnMount m s name lease = (some Err.leaseNotFound, s, []) := by
  unfold Get at hget
  cases hv : validateName name with
  | some e => rw [hv] at hget; cases hget
  | none =>
      rw [hv] at hget
      have hgv : getVolume m s name = .ok vol := hget
      simp only [UnMount, hv, hgv]
      rw [if_neg habs]

/-- Witness for C4 at a concrete input: releasing the unknown lease `zz`
while `c1` is held. -/
theorem c4_unmount_unknown_lease_witness :
    UnMount M0 stLeased "vol01" "zz" = (some Err.leaseNotFound, stLeased, []) :=
  c4_unmount_unknown_lease M0 stLeased "vol01" "zz"
    (mkVol M0 "vol01" ("vol01.ext4", infoReg)) (by decide) (by decide)

/-! ### Mount idempotence (C3) -/

theorem isMountedVol_eq_false (s : FsState) (n : String) (h : isMountedVol s n = false) :
    listLeases s n = [] := by
  unfold isMountedVol at h
  cases hls : listLeases s n with
  | nil => rfl
  | cons a as => rw [hls] at h; simp [List.isEmpty] at h

theorem isMountedVol_acquireLease (s : FsState) (n l : String) :
    isMountedVol (acquireLease s n l) n = true := by
  unfold isMountedVol
  rw [listLeases_acquireLease_self]
  cases h : addLease (listLeases s n) l with
  | nil => exact absurd h (addLease_ne_nil _ _)
  | cons a as => simp [List.isEmpty]

theorem acquireLease_acquireLease (s : FsState) (n l : String) :
    acquireLease (acquireLease s n l) n l = acquireLease s n l := by
  unfold acquireLease
  rw [listLeases_setDir_self, addLease_of_mem _ _ (mem_addLease_self _ _), setDir_setDir]

theorem count_addLease (ls : List String) (l : String) (hnd : ls.Nodup) :
    (addLease ls l).count l = 1 := by
  by_cases h : l ∈ ls
  · rw [addLease_of_mem _ _ h]
    exact List.count_eq_one_of_mem hnd h
  · rw [addLease, if_neg h, List.count_cons_self,
      List.count_eq_zero_of_not_mem h]

/-- C3: when `Mount(name, leaseId)` succeeds, repeating the very same call
returns the identical mountpoint path `<mountDir>/<name>`, changes nothing
(in particular it performs no mount syscall), and the marker for that lease
identifier is present exactly once — the reference count for the identifier
stays at one.  The hypothesis that the initial state directory listing has no
duplicate entries holds for every listing of a real directory. -/
theorem c3_mount_idempotent (m : Manager) (s : FsState) (name lease p : String)
    (s1 : FsState) (evs : List Event)
    (hnd : (listLeases s name).Nodup)
    (h : Mount m s name lease = (.ok p, s1, evs)) :
    Mount m s1 name lease = (.ok p, s1, []) ∧
    p = joinPath m.mountDir name ∧
    (listLeases s1 name).count lease = 1 := by
  cases hv : validateName name with
  | some e => simp [Mount, hv] at h
  | none =>
    cases hgv : getVolume m s name with
    | error e => simp [Mount, hv, hgv] at h
    | ok vol =>
      cases him : isMountedVol s name with
      | true =>
          simp only [Mount, hv, hgv, him, if_true] at h
          obtain ⟨hp, hs1, hevs⟩ := by
            simpa [Prod.ext_iff] using h
          subst hs1
          have hA : getVolume m (acquireLease s name lease) name = .ok vol := hgv
          refine ⟨?_, ?_, ?_⟩
          · simp only [Mount, hv, hA, isMountedVol_acquireLease, if_true,
              acquireLease_acquireLease]
            rw [← hp]
          · rw [← hp, getVolume_mountPointPath m s name vol hgv]
          · rw [listLeases_acquireLease_self]
            exact count_addLease _ _ hnd
      | false =>
          by_cases hin : name ∈ s.mountPoints
          · simp [Mount, hv, hgv, him, hin] at h
          · simp only [Mount, hv, hgv, him, Bool.false_eq_true, if_false, if_neg hin] at h
            obtain ⟨hp, hs1, hevs⟩ := by
              simpa [Prod.ext_iff] using h
            subst hs1
            have hA : getVolume m (addMountPoint (acquireLease s name lease) name) name
                = .ok vol := hgv
            have hB : isMountedVol (addMountPoint (acquireLease s name lease) name) name
                = true := isMountedVol_acquireLease s name lease
            have hC : acquireLease (addMountPoint (acquireLease s name lease) name) name lease
                = addMountPoint (acquireLease s name lease) name :=
              congrArg (fun t => addMountPoint t name) (acquireLease_acquireLease s name lease)
            refine ⟨?_, ?_, ?_⟩
            · simp only [Mount, hv, hA, hB, if_true, hC]
              rw [← hp]
            · rw [← hp, getVolume_mountPointPath m s name vol hgv]
            · have : listLeases (addMountPoint (acquireLease s name lease) name) name
                  = addLease (listLeases s name) lease := listLeases_acquireLease_self s name lease
              rw [this]
              exact count_addLease _ _ hnd

/-- Witness for C3: mounting `vol01` with lease `c1` on an unmounted volume,
then repeating the call. -/
theorem c3_mount_idempotent_witness :
    Mount M0 (Mount M0 stOneVol "vol01" "c1").2.1 "vol01" "c1"
        = (.ok "/mnt/vol01", (Mount M0 stOneVol "vol01" "c1").2.1, []) ∧
    "/mnt/vol01" = joinPath M0.mountDir "vol01" ∧
    (listLeases (Mount M0 stOneVol "vol01" "c1").2.1 "vol01").count "c1" = 1 :=
  c3_mount_idempotent M0 stOneVol "vol01" "c1" "/mnt/vol01"
    (Mount M0 stOneVol "vol01" "c1").2.1 [.mountSys "vol01"] (by decide) (by decide)

/-! ### Mode option (C5) and Create early checks / allocation (C6, C7, C8) -/

/-- Counterexample for C5 as stated: the claim says every mode value in
0..0o7777 — including 0 — is accepted, but the driver's check
`modeParsed <= 0 || modeParsed > 07777` rejects a supplied mode of 0: the
string "0" parses to the value 0 and is refused as an invalid mode. -/
theorem c5_mode_zero_rejected :
    parseOctalU32 "0" = some 0 ∧ parseMode "0" = .error .invalidMode := by decide

/-- C5 (amended): a supplied mode string parsing to the value `v` is accepted
exactly when `1 ≤ v ≤ 0o7777`; the value 0 is rejected with `InvalidMode`
just like out-of-range values. -/
theorem c5_mode_amended (s : String) (v : Nat) (h : parseOctalU32 s = some v) :
    parseMode s = .ok v ↔ (1 ≤ v ∧ v ≤ 0o7777) := by
  simp only [parseMode, h]
  by_cases hc : v ≤ 0 ∨ 0o7777 < v
  · rw [if_pos hc]
    constructor
    · intro he
      cases he
    · intro hr
      exact absurd hc (by omega)
  · rw [if_neg hc]
    constructor
    · intro _
      constructor <;> omega
    · intro _
      rfl

/-- Witness for C5 (amended) at the concrete mode string "750". -/
theorem c5_mode_amended_witness :
    parseOctalU32 "750" = some 488 ∧
    (parseMode "750" = .ok 488 ↔ (1 ≤ 488 ∧ 488 ≤ 0o7777)) :=
  ⟨by decide, c5_mode_amended "750" 488 (by decide)⟩

/-- An environment in which every external utility succeeds. -/
def envAllOk : ExecEnv :=
  { fallocate := .ok, truncateOk := true, ddOk := true, mkfsOk := true,
    chmodOk := true, chownOk := true }

/-- An environment in which `fallocate` fails reporting "No space". -/
def envNoSpace : ExecEnv := { envAllOk with fallocate := .noSpace }

/-- An environment in which `fallocate` fails for another reason, so `Create`
falls back to `dd`. -/
def envFallback : ExecEnv := { envAllOk with fallocate := .otherFailure }

/-- C6: for a valid name, Create with a size below the fixed 10,000,000-byte
minimum fails with `SizeTooSmall`, and Create with a filesystem outside the
allow-list fails with `UnsupportedFilesystem`; in both cases the state is
unchanged (no backing file is created) and no external utility has been
invoked — the checks precede all filesystem side effects. -/
theorem c6_create_early_checks (m : Manager) (env : ExecEnv) (s : FsState) (name : String)
    (sizeInBytes : Int) (sparse : Bool) (fs : String) (uid gid : Int) (mode : Nat)
    (hname : validateName name = none) :
    (sizeInBytes < 10000000 →
      Create m env s name sizeInBytes sparse fs uid gid mode
        = (some Err.sizeTooSmall, s, [])) ∧
    (¬ sizeInBytes < 10000000 → MkFsOptions fs = none →
      Create m env s name sizeInBytes sparse fs uid gid mode
        = (some Err.unsupportedFilesystem, s, [])) := by
  constructor
  · intro hs
    simp only [Create, hname, if_pos hs]
  · intro hs hfs
    simp only [Create, hname, if_neg hs, hfs]

/-- Witness for C6: a 5 MB request is too small; filesystem "btrfs" is not
allow-listed. -/
theorem c6_create_early_checks_witness :
    Create M0 envAllOk stEmpty "db" 5000000 false "ext4" (-1) (-1) 0
      = (some Err.sizeTooSmall, stEmpty, []) ∧
    Create M0 envAllOk stEmpty "db" 10000000 false "btrfs" (-1) (-1) 0
      = (some Err.unsupportedFilesystem, stEmpty, []) :=
  ⟨(c6_create_early_checks M0 envAllOk stEmpty "db" 5000000 false "ext4" (-1) (-1) 0
      (by decide)).1 (by decide),
   (c6_create_early_checks M0 envAllOk stEmpty "db" 10000000 false "btrfs" (-1) (-1) 0
      (by decide)).2 (by decide) (by decide)⟩

theorem lookupFile_removeFileName_self (s : FsState) (fname : String) :
    lookupFile (removeFileName s fname) fname = none := by
  simp only [lookupFile, removeFileName]
  rw [List.find?_eq_none.mpr]
  · rfl
  · intro p hp
    have := List.of_mem_filter hp
    simpa using this

/-- C7: during non-sparse allocation, a `fallocate` failure caused by
insufficient free space makes Create fail immediately with
`InsufficientSpace`: the `dd` zero-fill fallback is never invoked and the
partial backing file is removed. -/
theorem c7_no_space (m : Manager) (env : ExecEnv) (s : FsState) (name : String)
    (sizeInBytes : Int) (fs : String) (uid gid : Int) (mode : Nat)
    (hname : validateName name = none)
    (hsize : ¬ sizeInBytes < 10000000)
    (hfs : (MkFsOptions fs).isSome = true)
    (hfa : env.fallocate = .noSpace) :
    Create m env s name sizeInBytes false fs uid gid mode
      = (some Err.insufficientSpace, removeFileName s (dataFileName name fs),
          [.cmdFallocate]) ∧
    Event.cmdDd ∉ (Create m env s name sizeInBytes false fs uid gid mode).2.2 ∧
    lookupFile (Create m env s name sizeInBytes false fs uid gid mode).2.1
      (dataFileName name fs) = none := by
  obtain ⟨flags, hflags⟩ := Option.isSome_iff_exists.mp hfs
  have hC : Create m env s name sizeInBytes false fs uid gid mode
      = (some Err.insufficientSpace, removeFileName s (dataFileName name fs),
          [.cmdFallocate]) := by
    simp only [Create, hname, if_neg hsize, hflags, hfa, Bool.false_eq_true, if_false]
  refine ⟨hC, ?_, ?_⟩
  · rw [hC]
    simp
  · rw [hC]
    exact lookupFile_removeFileName_self s (dataFileName name fs)

/-- Witness for C7: a 50 MB non-sparse create on a full device. -/
theorem c7_no_space_witness :
    Create M0 envNoSpace stEmpty "db" 50000000 false "ext4" (-1) (-1) 0
      = (some Err.insufficientSpace, removeFileName stEmpty (dataFileName "db" "ext4"),
          [.cmdFallocate]) ∧
    Event.cmdDd ∉ (Create M0 envNoSpace stEmpty "db" 50000000 false "ext4" (-1) (-1) 0).2.2 ∧
    lookupFile (Create M0 envNoSpace stEmpty "db" 50000000 false "ext4" (-1) (-1) 0).2.1
      (dataFileName "db" "ext4") = none :=
  c7_no_space M0 envNoSpace stEmpty "db" 50000000 "ext4" (-1) (-1) 0
    (by decide) (by decide) (by decide) (by decide)

theorem lookupFile_putFile_self (s : FsState) (fname : String) (info : FileInfo) :
    lookupFile (putFile s fname info) fname = some info := by
  simp only [lookupFile, putFile]
  induction s.dataFiles with
  | nil => simp [updateFiles, List.find?]
  | cons p rest ih =>
      by_cases h : p.1 = fname
      · simp [updateFiles, h, List.find?]
      · simp only [updateFiles, if_neg h, List.find?]
        rw [show (decide (p.1 = fname)) = false by simp [h]]
        exact ih

/-- C8: when the non-sparse fast allocation fails for a reason other than
insufficient space, the `dd` fallback writes exactly
`sizeInBytes / 1000000` whole blocks of 1,000,000 bytes, so the backing file
ends up at `(sizeInBytes / 1000000) * 1000000` bytes — at most 999,999 bytes
short of the requested size — and Create nevertheless succeeds without
correcting the shortfall. -/
theorem c8_dd_fallback (m : Manager) (env : ExecEnv) (s : FsState) (name : String)
    (sizeInBytes : Int) (fs : String) (uid gid : Int) (mode : Nat)
    (hname : validateName name = none)
    (hsize : ¬ sizeInBytes < 10000000)
    (hfs : (MkFsOptions fs).isSome = true)
    (hfa : env.fallocate = .otherFailure)
    (hdd : env.ddOk = true)
    (hmkfs : env.mkfsOk = true)
    (hown : ¬(uid ≥ 0 ∨ gid ≥ 0 ∨ mode > 0)) :
    (Create m env s name sizeInBytes false fs uid gid mode).1 = none ∧
    (lookupFile (Create m env s name sizeInBytes false fs uid gid mode).2.1
        (dataFileName name fs)).map FileInfo.Size
      = some (sizeInBytes / 1000000 * 1000000) ∧
    Event.cmdDd ∈ (Create m env s name sizeInBytes false fs uid gid mode).2.2 ∧
    sizeInBytes / 1000000 * 1000000 ≤ sizeInBytes ∧
    sizeInBytes - 1000000 < sizeInBytes / 1000000 * 1000000 := by
  obtain ⟨flags, hflags⟩ := Option.isSome_iff_exists.mp hfs
  have hC : Create m env s name sizeInBytes false fs uid gid mode
      = (none,
          putFile s (dataFileName name fs)
            { IsRegular := true, Size := sizeInBytes / 1000000 * 1000000,
              Blocks := sizeInBytes / 1000000 * 1000000 / 512 },
          [.cmdFallocate, .cmdDd, .cmdMkfs]) := by
    simp only [Create, hname, if_neg hsize, hflags, hfa, hdd, hmkfs,
      Bool.false_eq_true, if_false, if_true, not_true, if_neg hown,
      List.cons_append, List.nil_append]
  refine ⟨?_, ?_, ?_, ?_, ?_⟩
  · rw [hC]
  · rw [hC]
    rw [lookupFile_putFile_self]
    rfl
  · rw [hC]
    simp
  · omega
  · omega

/-- Witness for C8: requesting 10,500,000 bytes yields a 10,000,000-byte
file (one whole dd block of the 10.5 requested), and Create succeeds. -/
theorem c8_dd_fallback_witness :
    (Create M0 envFallback stEmpty "db" 10500000 false "ext4" (-1) (-1) 0).1 = none ∧
    (lookupFile (Create M0 envFallback stEmpty "db" 10500000 false "ext4" (-1) (-1) 0).2.1
        (dataFileName "db" "ext4")).map FileInfo.Size
      = some (10500000 / 1000000 * 1000000) ∧
    Event.cmdDd ∈ (Create M0 envFallback stEmpty "db" 10500000 false "ext4" (-1) (-1) 0).2.2 ∧
    (10500000 : Int) / 1000000 * 1000000 ≤ 10500000 ∧
    (10500000 : Int) - 1000000 < 10500000 / 1000000 * 1000000 :=
  c8_dd_fallback M0 envFallback stEmpty "db" 10500000 "ext4" (-1) (-1) 0
    (by decide) (by decide) (by decide) (by decide) (by decide) (by decide) (by decide)

/-! ### Lease-count bookkeeping for the trace theorem (C2) -/

theorem leaseCount_setDir_self (s : FsState) (n : String) (ls : List String) :
    leaseCount (setDir s n ls) n = ls.length := by
  simp [leaseCount, listLeases_setDir_self]

theorem leaseCount_setDir_ne (s : FsState) (n n' : String) (ls : List String) (h : n' ≠ n) :
    leaseCount (setDir s n ls) n' = leaseCount s n' := by
  simp [leaseCount, listLeases_setDir_ne s n n' ls h]

theorem leaseCount_removeDir_self (s : FsState) (n : String) :
    leaseCount (removeDir s n) n = 0 := by
  simp [leaseCount, listLeases_removeDir_self]

theorem leaseCount_removeDir_ne (s : FsState) (n n' : String) (h : n' ≠ n) :
    leaseCount (removeDir s n) n' = leaseCount s n' := by
  simp [leaseCount, listLeases_removeDir_ne s n n' h]

theorem leaseCount_addMountPoint (s : FsState) (n' nm : String) :
    leaseCount (addMountPoint s n') nm = leaseCount s nm := rfl

theorem leaseCount_removeMountPoint (s : FsState) (n' nm : String) :
    leaseCount (removeMountPoint s n') nm = leaseCount s nm := rfl

theorem leaseCount_acquireLease_ne_zero (s : FsState) (n l : String) :
    leaseCount (acquireLease s n l) n ≠ 0 := by
  unfold leaseCount
  rw [listLeases_acquireLease_self]
  intro h
  exact addLease_ne_nil _ _ (List.length_eq_zero.mp h)

theorem leaseCount_acquireLease_ne (s : FsState) (n n' l : String) (h : n' ≠ n) :
    leaseCount (acquireLease s n l) n' = leaseCount s n' := by
  simp [leaseCount, listLeases_acquireLease_ne s n n' l h]

theorem isMountedVol_true_iff (s : FsState) (n : String) :
    isMountedVol s n = true ↔ leaseCount s n ≠ 0 := by
  unfold isMountedVol leaseCount
  cases listLeases s n <;> simp [List.isEmpty]

theorem leaseCount_ne_zero_of_mem (s : FsState) (n l : String) (h : l ∈ listLeases s n) :
    leaseCount s n ≠ 0 := by
  unfold leaseCount
  intro h0
  rw [List.length_eq_zero.mp h0] at h
  cases h

theorem countEv_nil (e : Event) : countEv [] e = 0 := rfl

theorem countEv_append (a b : List Event) (e : Event) :
    countEv (a ++ b) e = countEv a e + countEv b e := by
  simp [countEv, List.filter_append]

theorem countEv_single (x e : Event) : countEv [x] e = if x = e then 1 else 0 := by
  by_cases h : x = e <;> simp [countEv, h]

/-- One Mount/UnMount call preserves the on-disk invariant, and its trace
holds a physical mount event exactly when the call takes the lease count of
the given volume from zero to nonzero, and a physical unmount event exactly
when it takes it from nonzero to zero. -/
theorem runOp_step (m : Manager) (s : FsState) (op : Op) (nm : String) (hwf : WF s) :
    WF (runOp m s op).1 ∧
    countEv (runOp m s op).2 (.mountSys nm)
      = (if leaseCount s nm = 0 ∧ leaseCount (runOp m s op).1 nm ≠ 0 then 1 else 0) ∧
    countEv (runOp m s op).2 (.umountSys nm)
      = (if leaseCount s nm ≠ 0 ∧ leaseCount (runOp m s op).1 nm = 0 then 1 else 0) := by
  cases op with
  | mount name lease =>
      simp only [runOp]
      cases hv : validateName name with
      | some e =>
          simp only [Mount, hv]
          refine ⟨hwf, ?_, ?_⟩
          · rw [if_neg]
            · rfl
            · rintro ⟨h1, h2⟩
              exact h2 h1
          · rw [if_neg]
            · rfl
            · rintro ⟨h1, h2⟩
              exact h1 h2
      | none =>
        cases hgv : getVolume m s name with
        | error e =>
            simp only [Mount, hv, hgv]
            refine ⟨hwf, ?_, ?_⟩
            · rw [if_neg]
              · rfl
              · rintro ⟨h1, h2⟩
                exact h2 h1
            · rw [if_neg]
              · rfl
              · rintro ⟨h1, h2⟩
                exact h1 h2
        | ok vol =>
          cases him : isMountedVol s name with
          | true =>
              have hcnt : leaseCount s name ≠ 0 := (isMountedVol_true_iff s name).mp him
              simp only [Mount, hv, hgv, him, if_true]
              refine ⟨?_, ?_, ?_⟩
              · intro n hn
                by_cases hnn : n = name
                · subst hnn
                  exact leaseCount_acquireLease_ne_zero s n lease
                · rw [leaseCount_acquireLease_ne s name n lease hnn]
                  exact hwf n hn
              · rw [if_neg]
                · rfl
                · rintro ⟨h1, h2⟩
                  by_cases hnn : nm = name
                  · subst hnn
                    exact hcnt h1
                  · rw [leaseCount_acquireLease_ne s name nm lease hnn] at h2
                    exact h2 h1
              · rw [if_neg]
                · rfl
                · rintro ⟨h1, h2⟩
                  by_cases hnn : nm = name
                  · subst hnn
                    exact leaseCount_acquireLease_ne_zero s nm lease h2
                  · rw [leaseCount_acquireLease_ne s name nm lease hnn] at h2
                    exact h1 h2
          | false =>
              have hls : listLeases s name = [] := isMountedVol_eq_false s name him
              have hcnt0 : leaseCount s name = 0 := by simp [leaseCount, hls]
              have hnotin : name ∉ s.mountPoints := fun hmem => hwf name hmem hcnt0
              simp only [Mount, hv, hgv, him, Bool.false_eq_true, if_false, if_neg hnotin]
              refine ⟨?_, ?_, ?_⟩
              · intro n hn
                rw [leaseCount_addMountPoint]
                by_cases hnn : n = name
                · subst hnn
                  exact leaseCount_acquireLease_ne_zero s n lease
                · rcases List.mem_cons.mp hn with h | h
                  · exact absurd h hnn
                  · rw [leaseCount_acquireLease_ne s name n lease hnn]
                    exact hwf n h
              · rw [countEv_single]
                by_cases hnn : nm = name
                · subst hnn
                  rw [if_pos rfl, if_pos ⟨hcnt0, by
                    rw [leaseCount_addMountPoint]
                    exact leaseCount_acquireLease_ne_zero s nm lease⟩]
                · rw [if_neg (fun hh => hnn (by cases hh; rfl))]
                  rw [if_neg]
                  rintro ⟨h1, h2⟩
                  rw [leaseCount_addMountPoint,
                    leaseCount_acquireLease_ne s name nm lease hnn] at h2
                  exact h2 h1
              · rw [countEv_single]
                rw [if_neg (fun hh => by cases hh)]
                rw [if_neg]
                rintro ⟨h1, h2⟩
                by_cases hnn : nm = name
                · subst hnn
                  exact h1 hcnt0
                · rw [leaseCount_addMountPoint,
                    leaseCount_acquireLease_ne s name nm lease hnn] at h2
                  exact h1 h2
  | unmount name lease =>
      simp only [runOp]
      cases hv : validateName name with
      | some e =>
          simp only [UnMount, hv]
          refine ⟨hwf, ?_, ?_⟩
          · rw [if_neg]
            · rfl
            · rintro ⟨h1, h2⟩
              exact h2 h1
          · rw [if_neg]
            · rfl
            · rintro ⟨h1, h2⟩
              exact h1 h2
      | none =>
        cases hgv : getVolume m s name with
        | error e =>
            simp only [UnMount, hv, hgv]
            refine ⟨hwf, ?_, ?_⟩
            · rw [if_neg]
              · rfl
              · rintro ⟨h1, h2⟩
                exact h2 h1
            · rw [if_neg]
              · rfl
              · rintro ⟨h1, h2⟩
                exact h1 h2
        | ok vol =>
          by_cases hmem : lease ∈ listLeases s name
          · have hcnt : leaseCount s name ≠ 0 := leaseCount_ne_zero_of_mem s name lease hmem
            by_cases hrem : (listLeases s name).erase lease ≠ []
            · simp only [UnMount, hv, hgv, if_pos hmem, if_pos hrem]
              have hpost : leaseCount (setDir s name ((listLeases s name).erase lease)) name
                  ≠ 0 := by
                rw [leaseCount_setDir_self]
                intro h0
                exact hrem (List.length_eq_zero.mp h0)
              refine ⟨?_, ?_, ?_⟩
              · intro n hn
                by_cases hnn : n = name
                · subst hnn
                  exact hpost
                · rw [leaseCount_setDir_ne s name n _ hnn]
                  exact hwf n hn
              · rw [if_neg]
                · rfl
                · rintro ⟨h1, h2⟩
                  by_cases hnn : nm = name
                  · subst hnn
                    exact hcnt h1
                  · rw [leaseCount_setDir_ne s name nm _ hnn] at h2
                    exact h2 h1
              · rw [if_neg]
                · rfl
                · rintro ⟨h1, h2⟩
                  by_cases hnn : nm = name
                  · subst hnn
                    exact hpost h2
                  · rw [leaseCount_setDir_ne s name nm _ hnn] at h2
                    exact h1 h2
            · simp only [UnMount, hv, hgv, if_pos hmem, if_neg hrem]
              have hpost0 : leaseCount
                  (removeMountPoint
                    (removeDir (setDir s name ((listLeases s name).erase lease)) name) name)
                  name = 0 := by
                rw [leaseCount_removeMountPoint]
                exact leaseCount_removeDir_self _ name
              have hpostne : ∀ n', n' ≠ name →
                  leaseCount
                    (removeMountPoint
                      (removeDir (setDir s name ((listLeases s name).erase lease)) name) name)
                    n' = leaseCount s n' := by
                intro n' hne
                rw [leaseCount_removeMountPoint, leaseCount_removeDir_ne _ name n' hne,
                  leaseCount_setDir_ne s name n' _ hne]
              refine ⟨?_, ?_, ?_⟩
              · intro n hn
                have hn' := List.mem_filter.mp hn
                have hne : n ≠ name := by simpa using hn'.2
                rw [hpostne n hne]
                exact hwf n hn'.1
              · rw [countEv_single]
                rw [if_neg (fun hh => by cases hh)]
                rw [if_neg]
                rintro ⟨h1, h2⟩
                by_cases hnn : nm = name
                · subst hnn
                  exact hcnt h1
                · rw [hpostne nm hnn] at h2
                  exact h2 h1
              · rw [countEv_single]
                by_cases hnn : nm = name
                · subst hnn
                  rw [if_pos rfl, if_pos ⟨hcnt, hpost0⟩]
                · rw [if_neg (fun hh => hnn (by cases hh; rfl))]
                  rw [if_neg]
                  rintro ⟨h1, h2⟩
                  rw [hpostne nm hnn] at h2
                  exact h1 h2
          · simp only [UnMount, hv, hgv, if_neg hmem]
            refine ⟨hwf, ?_, ?_⟩
            · rw [if_neg]
              · rfl
              · rintro ⟨h1, h2⟩
                exact h2 h1
            · rw [if_neg]
              · rfl
              · rintro ⟨h1, h2⟩
                exact h1 h2

/-- Event counting over a whole run agrees with the transition counters. -/
theorem run_counts (m : Manager) (nm : String) :
    ∀ (ops : List Op) (s : FsState), WF s →
      countEv (run m s ops).2 (.mountSys nm) = mountTrans m nm s ops ∧
      countEv (run m s ops).2 (.umountSys nm) = unmountTrans m nm s ops := by
  intro ops
  induction ops with
  | nil =>
      intro s _
      simp [run, countEv, mountTrans, unmountTrans]
  | cons op rest ih =>
      intro s hwf
      obtain ⟨hwf', hm, hu⟩ := runOp_step m s op nm hwf
      obtain ⟨ihm, ihu⟩ := ih (runOp m s op).1 hwf'
      constructor
      · show countEv ((runOp m s op).2 ++ (run m (runOp m s op).1 rest).2) (.mountSys nm) = _
        rw [countEv_append, hm, ihm]
        rfl
      · show countEv ((runOp m s op).2 ++ (run m (runOp m s op).1 rest).2) (.umountSys nm) = _
        rw [countEv_append, hu, ihu]
        rfl

/-- C2: over any sequence of Mount/UnMount calls from a consistent state, the
number of physical mount-syscall invocations for a volume equals the number
of calls at which its lease count goes from zero to nonzero, and the number
of physical unmount-syscall invocations equals the number of calls at which
it returns to zero (each single transition therefore triggers exactly one
syscall).  Moreover a Mount call whose pre-acquisition lease count is nonzero
and an UnMount call that leaves the count nonzero change only the lease
marker files: the data files and the mountpoint directories are untouched
and no syscall event is emitted. -/
theorem c2_lease_transitions (m : Manager) :
    (∀ (s : FsState) (ops : List Op) (nm : String), WF s →
      countEv (run m s ops).2 (.mountSys nm) = mountTrans m nm s ops ∧
      countEv (run m s ops).2 (.umountSys nm) = unmountTrans m nm s ops) ∧
    (∀ (s : FsState) (name lease : String), leaseCount s name ≠ 0 →
      (Mount m s name lease).2.1.dataFiles = s.dataFiles ∧
      (Mount m s name lease).2.1.mountPoints = s.mountPoints ∧
      (Mount m s name lease).2.2 = []) ∧
    (∀ (s : FsState) (name lease : String),
      leaseCount (UnMount m s name lease).2.1 name ≠ 0 →
      (UnMount m s name lease).2.1.dataFiles = s.dataFiles ∧
      (UnMount m s name lease).2.1.mountPoints = s.mountPoints ∧
      (UnMount m s name lease).2.2 = []) := by
  refine ⟨fun s ops nm hwf => run_counts m nm ops s hwf, ?_, ?_⟩
  · intro s name lease h
    cases hv : validateName name with
    | some e =>
        simp only [Mount, hv]
        exact ⟨trivial, trivial, trivial⟩
    | none =>
      cases hgv : getVolume m s name with
      | error e =>
          simp only [Mount, hv, hgv]
          exact ⟨trivial, trivial, trivial⟩
      | ok vol =>
          have him : isMountedVol s name = true := (isMountedVol_true_iff s name).mpr h
          simp only [Mount, hv, hgv, him, if_true]
          exact ⟨rfl, rfl, trivial⟩
  · intro s name lease h
    cases hv : validateName name with
    | some e =>
        simp only [UnMount, hv]
        exact ⟨trivial, trivial, trivial⟩
    | none =>
      cases hgv : getVolume m s name with
      | error e =>
          simp only [UnMount, hv, hgv]
          exact ⟨trivial, trivial, trivial⟩
      | ok vol =>
          by_cases hmem : lease ∈ listLeases s name
          · by_cases hrem : (listLeases s name).erase lease ≠ []
            · simp only [UnMount, hv, hgv, if_pos hmem, if_pos hrem]
              exact ⟨rfl, rfl, trivial⟩
            · simp only [UnMount, hv, hgv, if_pos hmem, if_neg hrem] at h
              exact absurd (by
                rw [leaseCount_removeMountPoint]
                exact leaseCount_removeDir_self _ name) h
          · simp only [UnMount, hv, hgv, if_neg hmem]
            exact ⟨trivial, trivial, trivial⟩

/-- The spec's example scenario (section 8): two consumers mount `db`-style
volume `vol01`, then both release it. -/
def Ops0 : List Op :=
  [.mount "vol01" "c1", .mount "vol01" "c2",
   .unmount "vol01" "c1", .unmount "vol01" "c2"]

/-- Witness for C2: on the example scenario the counters agree and evaluate
to exactly one physical mount and one physical unmount; a Mount on an
already-mounted volume emits no event. -/
theorem c2_lease_transitions_witness :
    WF stOneVol ∧
    countEv (run M0 stOneVol Ops0).2 (.mountSys "vol01")
      = mountTrans M0 "vol01" stOneVol Ops0 ∧
    countEv (run M0 stOneVol Ops0).2 (.umountSys "vol01")
      = unmountTrans M0 "vol01" stOneVol Ops0 ∧
    countEv (run M0 stOneVol Ops0).2 (.mountSys "vol01") = 1 ∧
    countEv (run M0 stOneVol Ops0).2 (.umountSys "vol01") = 1 ∧
    leaseCount stLeased "vol01" ≠ 0 ∧
    (Mount M0 stLeased "vol01" "c2").2.2 = [] := by
  refine ⟨by decide, ?_, ?_, by decide, by decide, by decide, ?_⟩
  · exact ((c2_lease_transitions M0).1 stOneVol Ops0 "vol01" (by decide)).1
  · exact ((c2_lease_transitions M0).1 stOneVol Ops0 "vol01" (by decide)).2
  · exact ((c2_lease_transitions M0).2.1 stLeased "vol01" "c2" (by decide)).2.2

end Loopback
